import Mathlib

/-!
# QuadDisc description tags

A shallow embedding of `res/description/quaddisc.h`, the header that declares
the parameter identifiers of the QuadDisc object:

    enum
    {
        PY_QUADDISC_RADIUS                  = 1000,
        PY_QUADDISC_RINGS                   = 1001,
        PY_QUADDISC_SUBDIVISIONS            = 1002,
        PY_QUADDISC_SMOOTHING               = 2000,
        PY_QUADDISC_SMOOTHING_ITERATIONS    = 2001,
        PY_QUADDISC_SMOOTHING_STIFFNESS     = 2002
    };

A C enumerator is a named constant of type `int`; each one is embedded as an
`Int` constant carrying the literal of its initialiser. The enumeration itself
(the closed list of names, in declaration order) is the inductive type
`QuadDiscTag`, and `QuadDiscTag.value` sends a name to its constant.
-/

namespace QuadDisc

/-! ## The enumerators -/

/-- Enumerator `PY_QUADDISC_RADIUS = 1000`. -/
def PY_QUADDISC_RADIUS : Int := 1000

/-- Enumerator `PY_QUADDISC_RINGS = 1001`. -/
def PY_QUADDISC_RINGS : Int := 1001

/-- Enumerator `PY_QUADDISC_SUBDIVISIONS = 1002`. -/
def PY_QUADDISC_SUBDIVISIONS : Int := 1002

/-- Enumerator `PY_QUADDISC_SMOOTHING = 2000`. -/
def PY_QUADDISC_SMOOTHING : Int := 2000

/-- Enumerator `PY_QUADDISC_SMOOTHING_ITERATIONS = 2001`. -/
def PY_QUADDISC_SMOOTHING_ITERATIONS : Int := 2001

/-- Enumerator `PY_QUADDISC_SMOOTHING_STIFFNESS = 2002`. -/
def PY_QUADDISC_SMOOTHING_STIFFNESS : Int := 2002

/-! ## The enumeration -/

/-- The names declared by the anonymous `enum` of `quaddisc.h`, in the order
of the declaration. -/
inductive QuadDiscTag where
  | RADIUS
  | RINGS
  | SUBDIVISIONS
  | SMOOTHING
  | SMOOTHING_ITERATIONS
  | SMOOTHING_STIFFNESS
  deriving DecidableEq, Repr

namespace QuadDiscTag

/-- The integer an enumerator name stands for. -/
def value : QuadDiscTag → Int
  | RADIUS => PY_QUADDISC_RADIUS
  | RINGS => PY_QUADDISC_RINGS
  | SUBDIVISIONS => PY_QUADDISC_SUBDIVISIONS
  | SMOOTHING => PY_QUADDISC_SMOOTHING
  | SMOOTHING_ITERATIONS => PY_QUADDISC_SMOOTHING_ITERATIONS
  | SMOOTHING_STIFFNESS => PY_QUADDISC_SMOOTHING_STIFFNESS

/-- Every enumerator of the declaration, first to last. -/
def all : List QuadDiscTag :=
  [RADIUS, RINGS, SUBDIVISIONS, SMOOTHING, SMOOTHING_ITERATIONS, SMOOTHING_STIFFNESS]

/-- The enumerators whose value is `v`: what a lookup by value finds. -/
def withValue (v : Int) : List QuadDiscTag :=
  all.filter (fun t => decide (t.value = v))

end QuadDiscTag

/-! ## Helper lemmas -/

/-- The list `all` misses no enumerator. -/
theorem QuadDiscTag.mem_all (t : QuadDiscTag) : t ∈ QuadDiscTag.all := by
  cases t <;> simp [QuadDiscTag.all]

/-- Two enumerators with one value are one enumerator. -/
theorem QuadDiscTag.eq_of_value_eq (a b : QuadDiscTag) (h : a.value = b.value) : a = b := by
  cases a <;> cases b <;> first | rfl | (exact absurd h (by decide))

/-! ## Claims -/

/-- C1: the six tags have pairwise distinct integer values. The map from tag
to value is injective, the list of values in declaration order has no
repetition, and for every integer a lookup by value finds at most one tag. -/
theorem tag_values_pairwise_distinct :
    Function.Injective QuadDiscTag.value ∧
      (QuadDiscTag.all.map QuadDiscTag.value).Nodup ∧
      (∀ v : Int, (QuadDiscTag.withValue v).length ≤ 1) ∧
      (∀ v : Int, ∀ a b : QuadDiscTag, a.value = v → b.value = v → a = b) := by
  refine ⟨fun a b h => QuadDiscTag.eq_of_value_eq a b h, by decide, ?_, ?_⟩
  · intro v
    simp only [QuadDiscTag.withValue, QuadDiscTag.all, List.filter, QuadDiscTag.value,
      PY_QUADDISC_RADIUS, PY_QUADDISC_RINGS,
      PY_QUADDISC_SUBDIVISIONS, PY_QUADDISC_SMOOTHING, PY_QUADDISC_SMOOTHING_ITERATIONS,
      PY_QUADDISC_SMOOTHING_STIFFNESS]
    by_cases h0 : v = 1000
    · subst h0; decide
    by_cases h1 : v = 1001
    · subst h1; decide
    by_cases h2 : v = 1002
    · subst h2; decide
    by_cases h3 : v = 2000
    · subst h3; decide
    by_cases h4 : v = 2001
    · subst h4; decide
    by_cases h5 : v = 2002
    · subst h5; decide
    have e0 : decide ((1000 : Int) = v) = false := decide_eq_false (fun h => h0 h.symm)
    have e1 : decide ((1001 : Int) = v) = false := decide_eq_false (fun h => h1 h.symm)
    have e2 : decide ((1002 : Int) = v) = false := decide_eq_false (fun h => h2 h.symm)
    have e3 : decide ((2000 : Int) = v) = false := decide_eq_false (fun h => h3 h.symm)
    have e4 : decide ((2001 : Int) = v) = false := decide_eq_false (fun h => h4 h.symm)
    have e5 : decide ((2002 : Int) = v) = false := decide_eq_false (fun h => h5 h.symm)
    simp only [e0, e1, e2, e3, e4, e5, List.length_nil, Nat.zero_le]
  · intro v a b ha hb
    exact QuadDiscTag.eq_of_value_eq a b (ha.trans hb.symm)

/-- C2: each of the six named constants equals its literal value, RADIUS 1000,
RINGS 1001, SUBDIVISIONS 1002, SMOOTHING 2000, SMOOTHING_ITERATIONS 2001 and
SMOOTHING_STIFFNESS 2002, and the list of tag values in declaration order is
that list of literals. -/
theorem tag_constants_literal_values :
    PY_QUADDISC_RADIUS = 1000 ∧ PY_QUADDISC_RINGS = 1001 ∧
      PY_QUADDISC_SUBDIVISIONS = 1002 ∧ PY_QUADDISC_SMOOTHING = 2000 ∧
      PY_QUADDISC_SMOOTHING_ITERATIONS = 2001 ∧ PY_QUADDISC_SMOOTHING_STIFFNESS = 2002 ∧
      QuadDiscTag.all.map QuadDiscTag.value = [1000, 1001, 1002, 2000, 2001, 2002] := by
  refine ⟨rfl, rfl, rfl, rfl, rfl, rfl, rfl⟩

/-- C3: the tag set is closed with exactly six members. The declaration lists
six tags without repetition and there is no other tag; an integer is the value
of some tag exactly when it is one of 1000, 1001, 1002, 2000, 2001, 2002; in
particular 0, 1003, 1999 and 2003 are the value of no tag. -/
theorem tag_set_closed_six_members :
    QuadDiscTag.all.length = 6 ∧ QuadDiscTag.all.Nodup ∧
      (∀ t : QuadDiscTag, t ∈ QuadDiscTag.all) ∧
      (∀ v : Int, (∃ t : QuadDiscTag, t.value = v) ↔
        v ∈ [(1000 : Int), 1001, 1002, 2000, 2001, 2002]) ∧
      (∀ t : QuadDiscTag,
        t.value ≠ 0 ∧ t.value ≠ 1003 ∧ t.value ≠ 1999 ∧ t.value ≠ 2003) ∧
      QuadDiscTag.withValue 0 = [] ∧ QuadDiscTag.withValue 1003 = [] ∧
      QuadDiscTag.withValue 1999 = [] ∧ QuadDiscTag.withValue 2003 = [] := by
  refine ⟨rfl, by decide, QuadDiscTag.mem_all, ?_, ?_, by decide, by decide, by decide,
    by decide⟩
  · intro v
    constructor
    · rintro ⟨t, rfl⟩
      cases t <;> decide
    · intro hv
      simp only [List.mem_cons, List.mem_singleton, List.not_mem_nil, or_false] at hv
      rcases hv with h | h | h | h | h | h
      · exact ⟨QuadDiscTag.RADIUS, h.symm⟩
      · exact ⟨QuadDiscTag.RINGS, h.symm⟩
      · exact ⟨QuadDiscTag.SUBDIVISIONS, h.symm⟩
      · exact ⟨QuadDiscTag.SMOOTHING, h.symm⟩
      · exact ⟨QuadDiscTag.SMOOTHING_ITERATIONS, h.symm⟩
      · exact ⟨QuadDiscTag.SMOOTHING_STIFFNESS, h.symm⟩
  · intro t
    cases t <;> decide

/-- C5: the tag values form two disjoint, internally consecutive blocks in
declaration order. The first three tags RADIUS, RINGS, SUBDIVISIONS have the
values 1000 + k and the last three SMOOTHING, SMOOTHING_ITERATIONS,
SMOOTHING_STIFFNESS the values 2000 + k, for k = 0, 1, 2; the values increase
strictly in declaration order, and each geometry tag is below each smoothing
tag, so that the two blocks share no value. -/
theorem tag_values_two_consecutive_blocks :
    QuadDiscTag.all =
        [QuadDiscTag.RADIUS, QuadDiscTag.RINGS, QuadDiscTag.SUBDIVISIONS] ++
          [QuadDiscTag.SMOOTHING, QuadDiscTag.SMOOTHING_ITERATIONS,
            QuadDiscTag.SMOOTHING_STIFFNESS] ∧
      [QuadDiscTag.RADIUS, QuadDiscTag.RINGS, QuadDiscTag.SUBDIVISIONS].map
          QuadDiscTag.value =
        (List.range 3).map (fun k => (1000 : Int) + k) ∧
      [QuadDiscTag.SMOOTHING, QuadDiscTag.SMOOTHING_ITERATIONS,
          QuadDiscTag.SMOOTHING_STIFFNESS].map QuadDiscTag.value =
        (List.range 3).map (fun k => (2000 : Int) + k) ∧
      (QuadDiscTag.all.map QuadDiscTag.value).Pairwise (fun x y => x < y) ∧
      (∀ g ∈ [QuadDiscTag.RADIUS, QuadDiscTag.RINGS, QuadDiscTag.SUBDIVISIONS],
        ∀ s ∈ [QuadDiscTag.SMOOTHING, QuadDiscTag.SMOOTHING_ITERATIONS,
            QuadDiscTag.SMOOTHING_STIFFNESS],
          g.value < s.value ∧ g.value ≠ s.value) := by
  refine ⟨rfl, by decide, by decide, by decide, by decide⟩

/-- C6: every tag value is a strictly positive integer below 2^31, so it fits
a signed 32-bit int: reducing it modulo 2^32 leaves it unchanged, and it is
neither 0 nor negative. -/
theorem tag_values_positive_fit_int32 :
    ∀ t : QuadDiscTag,
      0 < t.value ∧ t.value < 2 ^ 31 ∧ t.value % 2 ^ 32 = t.value ∧
        t.value ≠ 0 ∧ ¬ t.value < 0 := by
  intro t
  cases t <;> decide

end QuadDisc
